import Mathlib

/-!
Verification of the dhc3po DHCPv4 server (src/src) against its
natural-language specification.

The Rust sources are shallowly embedded:
  * machine bytes are `Nat` (reads from the wire are `% 256`-bounded by
    construction, arithmetic that can overflow is modelled explicitly);
  * fallible code returns `Option`/`Except`; a Rust panic (slice index out of
    bounds, `unwrap` on `None`, `todo!`, `copy_from_slice` length mismatch)
    is a distinguished `Outcome.panic` / `none` result;
  * the parse loop of `Dhcp::parse` does not advance the cursor on a Pad
    option, so it can loop forever; the embedding uses explicit fuel and
    returns `Outcome.hang` when the fuel runs out.

The repository snapshot is inconsistent: `dhcp.rs` and `state.rs` call
`DhcpOptionList::get`, `DhcpOptionList::consume`, `DhcpOptionList::MAX_LEN`
and `AddrPool::option_builder`, none of which exist in
`src/src/types/dhcp_option.rs` (that file holds an append-only list from a
different iteration).  The opcode-indexed option list those callers need is
modelled from the spec (S4.2, S9) as `OptionMap` below; definitions taken
from the spec rather than the source say so in their doc comments.
-/

set_option maxRecDepth 100000

namespace Dhc3po

/-- A wire byte, modelled as `Nat`. -/
abbrev Byte := Nat

/-- Outcome of running a piece of Rust code that may fail, panic, or hang. -/
inductive Outcome (ε : Type) (α : Type) where
  | ok (a : α)
  | err (e : ε)
  | panic
  | hang
deriving DecidableEq

/-- `true` exactly on `Outcome.ok`. -/
def Outcome.isOk {ε α : Type} : Outcome ε α → Bool
  | .ok _ => true
  | _ => false

/-- The error enum of `src/src/error.rs` (the socket variant carrying an
`io::Error` is omitted: it is never produced by the embedded code). -/
inductive Error where
  | PayloadTooShort (n : Nat)
  | NotADhcpRequest (op : Byte)
  | DhcpMagicMissing
  | UnhandledDhcpOption (op : Byte)
  | InvalidDhcpOpCode (op : Byte)
  | NoMessageDhcpTypeProvided
  | InvalidDhcpOptionMessageType (v : Byte)
  | DhcpOptionLenOutOfBounds
  | MessageTypeBadLen (n : Byte)
  | MaxMessageSizeBadLen (n : Byte)
  | InvalidParameterRequestLen (n : Byte)
  | UnsupportedRequestedParameters (n : Byte)
  | InvalidClientUidLen (n : Byte)
  | InvalidClientNetworkDeviceInterfaceLen (n : Byte)
  | InvalidClientSystemArchLen (n : Byte)
  | UnsupportedClientIdentifierLen (n : Byte)
  | UnsupportedClientIdHwType (n : Byte)
  | InvalidVendorClassIdentifierLen (n : Byte)
  | AllIPAddressesExhausted
  /-- Used by `dhcp.rs` (REQUESTED_IP_ADDR and DHCP_SERVER_IP_ADDR arms)
  and listed in spec S7, but absent from the snapshot's `error.rs`. -/
  | InvalidIpAddrLen (n : Byte)
deriving DecidableEq

/-- `MessageType` from `src/src/types/message_type.rs`. -/
inductive MessageType where
  | Discover | Offer | Request | Decline | Ack | Nack | Release | Inform
  | Unset
deriving DecidableEq

/-- The `#[repr(u8)]` discriminant of a `MessageType` (`*message as u8`). -/
def MessageType.toU8 : MessageType → Byte
  | .Discover => 1
  | .Offer => 2
  | .Request => 3
  | .Decline => 4
  | .Ack => 5
  | .Nack => 6
  | .Release => 7
  | .Inform => 8
  | .Unset => 255

/-- `impl TryFrom<u8> for MessageType` from `src/src/types/message_type.rs`. -/
def MessageType.tryFrom (value : Byte) : Except Error MessageType :=
  if value = 1 then .ok .Discover
  else if value = 2 then .ok .Offer
  else if value = 3 then .ok .Request
  else if value = 4 then .ok .Decline
  else if value = 5 then .ok .Ack
  else if value = 6 then .ok .Nack
  else if value = 7 then .ok .Release
  else if value = 8 then .ok .Inform
  else .error (.InvalidDhcpOptionMessageType value)

/-- `ParameterRequest` from `src/src/types/parameter_request.rs`. -/
inductive ParameterRequest where
  | SubnetMask | TimeOffset | Router | TimeServer | NameServer
  | DomainNameServer | HostName | BootFileSize | DomainName | RootPath
  | ExtensionsPath | MaxDatagramReassmblySize | DefaultIpTtl
  | BroadcastAddress | PerformRouterDiscover | StaticRoute
  | NetworkInformationServiceDomain | NetworkInformationServiceServers
  | NtpServers | VendorSpecificInfo | NetBiosNameServer | NetBiosNodeType
  | NetBiosScope | RequestedIpAddress | IpAddressLease
  | DhcpServerIndentifier | RenewalTimeValue | RebindingTimeValue
  | VendorClassIndentifier | TftpServerName | BootfileName
  | UUIDBasedClientIdentifier | DomainSearch | ClasslessStaticRoute
  | DocsisFullSecurityServerIp | PxeUndefined1 | PxeUndefined2
  | PxeUndefined3 | PxeUndefined4 | PxeUndefined5 | PxeUndefined6
  | PxeUndefined7 | ClasslessStaticRouteMicrosoft | ProxyAutodiscovery
deriving DecidableEq

/-- The `#[repr(u8)]` discriminant of a `ParameterRequest`
(`*req_option as usize` in `Dhcp::insert_requested_options`). -/
def ParameterRequest.val : ParameterRequest → Nat
  | .SubnetMask => 1
  | .TimeOffset => 2
  | .Router => 3
  | .TimeServer => 4
  | .NameServer => 5
  | .DomainNameServer => 6
  | .HostName => 12
  | .BootFileSize => 13
  | .DomainName => 15
  | .RootPath => 17
  | .ExtensionsPath => 18
  | .MaxDatagramReassmblySize => 22
  | .DefaultIpTtl => 23
  | .BroadcastAddress => 28
  | .PerformRouterDiscover => 31
  | .StaticRoute => 33
  | .NetworkInformationServiceDomain => 40
  | .NetworkInformationServiceServers => 41
  | .NtpServers => 42
  | .VendorSpecificInfo => 43
  | .NetBiosNameServer => 44
  | .NetBiosNodeType => 46
  | .NetBiosScope => 47
  | .RequestedIpAddress => 50
  | .IpAddressLease => 51
  | .DhcpServerIndentifier => 54
  | .RenewalTimeValue => 58
  | .RebindingTimeValue => 59
  | .VendorClassIndentifier => 60
  | .TftpServerName => 66
  | .BootfileName => 67
  | .UUIDBasedClientIdentifier => 97
  | .DomainSearch => 119
  | .ClasslessStaticRoute => 121
  | .DocsisFullSecurityServerIp => 128
  | .PxeUndefined1 => 129
  | .PxeUndefined2 => 130
  | .PxeUndefined3 => 131
  | .PxeUndefined4 => 132
  | .PxeUndefined5 => 133
  | .PxeUndefined6 => 134
  | .PxeUndefined7 => 135
  | .ClasslessStaticRouteMicrosoft => 249
  | .ProxyAutodiscovery => 252

/-- `impl From<u8> for ParameterRequest`: the `unhandled` arm runs `todo!`,
which panics; that arm is modelled as `none`. -/
def ParameterRequest.fromU8 (value : Byte) : Option ParameterRequest :=
  if value = 1 then some .SubnetMask
  else if value = 2 then some .TimeOffset
  else if value = 3 then some .Router
  else if value = 4 then some .TimeServer
  else if value = 5 then some .NameServer
  else if value = 6 then some .DomainNameServer
  else if value = 12 then some .HostName
  else if value = 13 then some .BootFileSize
  else if value = 15 then some .DomainName
  else if value = 17 then some .RootPath
  else if value = 18 then some .ExtensionsPath
  else if value = 22 then some .MaxDatagramReassmblySize
  else if value = 23 then some .DefaultIpTtl
  else if value = 28 then some .BroadcastAddress
  else if value = 31 then some .PerformRouterDiscover
  else if value = 33 then some .StaticRoute
  else if value = 40 then some .NetworkInformationServiceDomain
  else if value = 41 then some .NetworkInformationServiceServers
  else if value = 42 then some .NtpServers
  else if value = 43 then some .VendorSpecificInfo
  else if value = 44 then some .NetBiosNameServer
  else if value = 46 then some .NetBiosNodeType
  else if value = 47 then some .NetBiosScope
  else if value = 50 then some .RequestedIpAddress
  else if value = 51 then some .IpAddressLease
  else if value = 54 then some .DhcpServerIndentifier
  else if value = 58 then some .RenewalTimeValue
  else if value = 59 then some .RebindingTimeValue
  else if value = 60 then some .VendorClassIndentifier
  else if value = 66 then some .TftpServerName
  else if value = 67 then some .BootfileName
  else if value = 97 then some .UUIDBasedClientIdentifier
  else if value = 119 then some .DomainSearch
  else if value = 121 then some .ClasslessStaticRoute
  else if value = 128 then some .DocsisFullSecurityServerIp
  else if value = 129 then some .PxeUndefined1
  else if value = 130 then some .PxeUndefined2
  else if value = 131 then some .PxeUndefined3
  else if value = 132 then some .PxeUndefined4
  else if value = 133 then some .PxeUndefined5
  else if value = 134 then some .PxeUndefined6
  else if value = 135 then some .PxeUndefined7
  else if value = 249 then some .ClasslessStaticRouteMicrosoft
  else if value = 252 then some .ProxyAutodiscovery
  else none

/-- `ClientIdentifier` from `src/src/types/client_identifier.rs`.
A MAC is 6 bytes. -/
structure ClientIdentifier where
  hw_type : Byte
  id : List Byte
deriving DecidableEq

/-- `impl TryFrom<&[u8]> for ClientIdentifier`: `value.first().unwrap()`
panics on an empty slice, and `value[1..].get(..MacAddr::LEN).unwrap()`
panics when fewer than 6 bytes follow the hardware-type byte. -/
def ClientIdentifier.tryFrom (value : List Byte) : Outcome Error ClientIdentifier :=
  match value with
  | [] => .panic
  | hw_type :: rest =>
      if hw_type ≠ 1 then .err (.UnsupportedClientIdHwType hw_type)
      else if rest.length < 6 then .panic
      else .ok { hw_type := hw_type, id := rest.take 6 }

/-- `DhcpOption` from `src/src/types/dhcp_option.rs`.  Fixed-size byte
arrays and `&str` payloads are `List Byte`; `LeaseTime` is a `u32`
(`Nat`, written `% 2^32`-free since the embedded code never overflows it),
`MaxMessageSize` a `u16`. -/
inductive DhcpOption where
  | Pad
  | SubnetMask (address : List Byte)
  | Router (address : List Byte)
  | DomainNameServer (address : List Byte)
  | HostName (name : List Byte)
  | DomainName (name : List Byte)
  | BroadcastAddress (address : List Byte)
  | RequestedIpAddr (address : List Byte)
  | LeaseTime (time : Nat)
  | MessageType (message : MessageType)
  | DhcpServerIpAddr (address : List Byte)
  | ParameterRequestList (params : List (Option ParameterRequest))
  | MaxMessageSize (size : Nat)
  | VendorClassIndentifier (payload : List Byte)
  | ClientIdentifier (cid : ClientIdentifier)
  | ClientSystemArch (payload : List Byte)
  | ClientNetworkDeviceInterface (payload : List Byte)
  | ClientUid (payload : List Byte)
  | End
deriving DecidableEq

/-- `DhcpOption::opcode` from `src/src/types/dhcp_option.rs`. -/
def DhcpOption.opcode : DhcpOption → Byte
  | .Pad => 0
  | .SubnetMask _ => 1
  | .Router _ => 3
  | .DomainNameServer _ => 6
  | .HostName _ => 12
  | .DomainName _ => 15
  | .BroadcastAddress _ => 28
  | .RequestedIpAddr _ => 50
  | .LeaseTime _ => 51
  | .MessageType _ => 53
  | .DhcpServerIpAddr _ => 54
  | .ParameterRequestList _ => 55
  | .MaxMessageSize _ => 57
  | .VendorClassIndentifier _ => 60
  | .ClientIdentifier _ => 61
  | .ClientSystemArch _ => 93
  | .ClientNetworkDeviceInterface _ => 94
  | .ClientUid _ => 97
  | .End => 255

/-- `DhcpOption::serialise` from `src/src/types/dhcp_option.rs`, as the run
of bytes written at the cursor (opcode byte first) together with the
returned length; the final `option => todo!` arm panics and is `none`.
`Pad` falls into that arm too: the match has no `Pad` case. -/
def DhcpOption.serialiseBytes : DhcpOption → Option (List Byte)
  | .SubnetMask address => some ([1, 4] ++ address)
  | .Router address => some ([3, 4] ++ address)
  | .HostName name => some ([12, name.length] ++ name)
  | .DomainName name => some ([15, name.length] ++ name)
  | .BroadcastAddress address => some ([28, 4] ++ address)
  | .DomainNameServer address => some ([6, 4] ++ address)
  | .MessageType message => some [53, 1, message.toU8]
  | .DhcpServerIpAddr address => some ([54, 4] ++ address)
  | .LeaseTime time =>
      some [51, 4, time / 16777216 % 256, time / 65536 % 256,
            time / 256 % 256, time % 256]
  | .End => some [255]
  | _ => none

/-- The `DhcpOptionList` that is actually present in
`src/src/types/dhcp_option.rs`: an append-only array of capacity
`MAX_LIST_LEN = 20` plus a running `count`.  `options` always has length
20 (`[None; MAX_LIST_LEN]` at construction). -/
structure DhcpOptionList where
  count : Nat
  options : List (Option DhcpOption)
deriving DecidableEq

/-- `DhcpOptionList::builder`. -/
def DhcpOptionList.builder : DhcpOptionList :=
  { count := 0, options := List.replicate 20 none }

/-- `DhcpOptionList::add`: `self.options[self.count] = Some(option)` then
`self.count += 1`.  The array write panics (`none`) once `count` reaches
the capacity 20. -/
def DhcpOptionList.add (l : DhcpOptionList) (option : DhcpOption) :
    Option DhcpOptionList :=
  if l.count < 20 then
    some { count := l.count + 1, options := l.options.set l.count (some option) }
  else none

/-- `DhcpOptionList::build`. -/
def DhcpOptionList.build (l : DhcpOptionList) : List (Option DhcpOption) :=
  l.options

/-- Modelled from the spec (S4.2, S9): the opcode-indexed option list that
`dhcp.rs` and `state.rs` compile against (`DhcpOptionList::get`,
`DhcpOptionList::consume`, `DhcpOptionList::MAX_LEN`); it is missing from
`src/`.  A fixed-capacity array indexed by opcode, at most one option per
opcode, modelled as a map from opcode to the stored option. -/
abbrev OptionMap := Nat → Option DhcpOption

/-- Modelled from the spec: the empty opcode-indexed list. -/
def OptionMap.empty : OptionMap := fun _ => none

/-- Modelled from the spec (S4.2): adding an option with opcode `k`
replaces any previous entry at `k`. -/
def OptionMap.add (l : OptionMap) (option : DhcpOption) : OptionMap :=
  fun k => if k = option.opcode then some option else l k

/-- Modelled from the spec (S4.2): `get(opcode)` returns the current entry
or nothing. -/
def OptionMap.get (l : OptionMap) (opcode : Nat) : Option DhcpOption :=
  l opcode

/-- The `Dhcp` packet struct from `src/src/dhcp.rs` (field names and doc
roles as in the source: `client_addr` is ciaddr, `server_addr` yiaddr,
`next_server_addr` siaddr, `relay_addr` giaddr). -/
structure Dhcp where
  op_code : Byte
  hw_addr_ty : Byte
  hw_addr_len : Byte
  hops : Byte
  transaction_id : List Byte
  secs : List Byte
  flags : List Byte
  client_addr : List Byte
  server_addr : List Byte
  next_server_addr : List Byte
  relay_addr : List Byte
  client_hw_addr : List Byte
  server_hostname : List Byte
  file : List Byte
  options : OptionMap
  message_type : MessageType

/-- Point update of a byte buffer (`buffer[k] = v`). -/
def upd (f : Nat → Byte) (k v : Nat) : Nat → Byte :=
  fun i => if i = k then v else f i

/-- `buffer[off..off + bs.length].copy_from_slice(bs)`. -/
def writeBytes : (Nat → Byte) → Nat → List Byte → (Nat → Byte)
  | buf, _, [] => buf
  | buf, off, b :: bs => writeBytes (upd buf off b) (off + 1) bs

/-- The `n` bytes of `data` starting at `off` (`data[off..off + n]`). -/
def readBytes (data : Nat → Byte) (off n : Nat) : List Byte :=
  (List.range n).map fun i => data (off + i)

/-- The option-scanning loop of `Dhcp::parse` (src/src/dhcp.rs lines
95-334), one fuel unit per iteration.  Faithful points worth noting:
  * a Pad option adds `Pad` but never advances `option_ptr`, so the source
    loops forever on it (`Outcome.hang` once the fuel is gone);
  * the `CLIENT_ID` arm slice-indexes `data[ptr..ptr + len]` directly and
    panics when the end is out of bounds, unlike every other arm;
  * the `CLIENT_UID` arm copies `option_len` bytes into a fixed 17-byte
    array with `copy_from_slice`, which panics unless `option_len = 17`;
  * a `MESSAGE_TYPE` option overwrites any previously recorded message
    type (duplicates are not rejected);
  * converting a parameter-request byte runs `todo!` (panics) on any value
    without a `ParameterRequest` variant. -/
def parseOptionsLoop (len : Nat) (data : Nat → Byte) :
    Nat → Nat → MessageType → OptionMap → Outcome Error (MessageType × OptionMap)
  | 0, _, _, _ => .hang
  | fuel + 1, ptr, mt, opts =>
    if len ≤ ptr then .ok (mt, opts)
    else
      let opcode := data ptr
      if opcode = 0 then
        parseOptionsLoop len data fuel ptr mt (opts.add .Pad)
      else if opcode = 53 then
        if len ≤ ptr + 1 then .err .DhcpOptionLenOutOfBounds
        else
          let option_len := data (ptr + 1)
          if option_len ≠ 1 then .err (.MessageTypeBadLen option_len)
          else if ptr + 2 < len then
            match MessageType.tryFrom (data (ptr + 2)) with
            | .error e => .err e
            | .ok m => parseOptionsLoop len data fuel (ptr + 2 + option_len) m opts
          else parseOptionsLoop len data fuel (ptr + 2 + option_len) mt opts
      else if opcode = 50 then
        if len ≤ ptr + 1 then .err .DhcpOptionLenOutOfBounds
        else
          let option_len := data (ptr + 1)
          if option_len ≠ 4 then .err (.InvalidIpAddrLen option_len)
          else
            let opts := if ptr + 2 + 4 ≤ len then
                opts.add (.RequestedIpAddr (readBytes data (ptr + 2) 4))
              else opts
            parseOptionsLoop len data fuel (ptr + 2 + option_len) mt opts
      else if opcode = 54 then
        if len ≤ ptr + 1 then .err .DhcpOptionLenOutOfBounds
        else
          let option_len := data (ptr + 1)
          if option_len ≠ 4 then .err (.InvalidIpAddrLen option_len)
          else
            let opts := if ptr + 2 + 4 ≤ len then
                opts.add (.DhcpServerIpAddr (readBytes data (ptr + 2) 4))
              else opts
            parseOptionsLoop len data fuel (ptr + 2 + option_len) mt opts
      else if opcode = 57 then
        if len ≤ ptr + 1 then .err .DhcpOptionLenOutOfBounds
        else
          let option_len := data (ptr + 1)
          if option_len ≠ 2 then .err (.MaxMessageSizeBadLen option_len)
          else
            let opts := if ptr + 2 + 2 ≤ len then
                opts.add (.MaxMessageSize (data (ptr + 2) * 256 + data (ptr + 3)))
              else opts
            parseOptionsLoop len data fuel (ptr + 2 + option_len) mt opts
      else if opcode = 55 then
        if len ≤ ptr + 1 then .err .DhcpOptionLenOutOfBounds
        else
          let option_len := data (ptr + 1)
          if option_len < 1 then .err (.InvalidParameterRequestLen option_len)
          else if 40 < option_len then .err (.InvalidParameterRequestLen option_len)
          else if ptr + 2 + option_len ≤ len then
            match (readBytes data (ptr + 2) option_len).mapM ParameterRequest.fromU8 with
            | none => .panic
            | some ps =>
                parseOptionsLoop len data fuel (ptr + 2 + option_len) mt
                  (opts.add (.ParameterRequestList
                    (ps.map some ++ List.replicate (40 - ps.length) none)))
          else parseOptionsLoop len data fuel (ptr + 2 + option_len) mt opts
      else if opcode = 60 then
        if len ≤ ptr + 1 then .err .DhcpOptionLenOutOfBounds
        else
          let option_len := data (ptr + 1)
          if 32 < option_len then .err (.InvalidVendorClassIdentifierLen option_len)
          else
            let opts := if ptr + 2 + option_len ≤ len then
                opts.add (.VendorClassIndentifier
                  (readBytes data (ptr + 2) option_len ++
                   List.replicate (32 - option_len) 0))
              else opts
            parseOptionsLoop len data fuel (ptr + 2 + option_len) mt opts
      else if opcode = 93 then
        if len ≤ ptr + 1 then .err .DhcpOptionLenOutOfBounds
        else
          let option_len := data (ptr + 1)
          if option_len ≠ 2 then .err (.InvalidClientSystemArchLen option_len)
          else
            let opts := if ptr + 2 + option_len ≤ len then
                opts.add (.ClientSystemArch (readBytes data (ptr + 2) option_len))
              else opts
            parseOptionsLoop len data fuel (ptr + 2 + option_len) mt opts
      else if opcode = 94 then
        if len ≤ ptr + 1 then .err .DhcpOptionLenOutOfBounds
        else
          let option_len := data (ptr + 1)
          if option_len ≠ 3 then .err (.InvalidClientNetworkDeviceInterfaceLen option_len)
          else
            let opts := if ptr + 2 + option_len ≤ len then
                opts.add (.ClientNetworkDeviceInterface (readBytes data (ptr + 2) option_len))
              else opts
            parseOptionsLoop len data fuel (ptr + 2 + option_len) mt opts
      else if opcode = 61 then
        if len ≤ ptr + 1 then .err .DhcpOptionLenOutOfBounds
        else
          let option_len := data (ptr + 1)
          if ptr + 2 + option_len ≤ len then
            match ClientIdentifier.tryFrom (readBytes data (ptr + 2) option_len) with
            | .ok cid =>
                parseOptionsLoop len data fuel (ptr + 2 + option_len) mt
                  (opts.add (.ClientIdentifier cid))
            | .err e => .err e
            | _ => .panic
          else .panic
      else if opcode = 97 then
        if len ≤ ptr + 1 then .err .DhcpOptionLenOutOfBounds
        else
          let option_len := data (ptr + 1)
          if option_len < 2 then .err (.InvalidClientUidLen option_len)
          else if 17 < option_len then .err (.InvalidClientUidLen option_len)
          else if ptr + 2 + option_len ≤ len then
            if option_len = 17 then
              parseOptionsLoop len data fuel (ptr + 2 + option_len) mt
                (opts.add (.ClientUid (readBytes data (ptr + 2) option_len)))
            else .panic
          else parseOptionsLoop len data fuel (ptr + 2 + option_len) mt opts
      else if opcode = 255 then
        .ok (mt, opts.add .End)
      else
        if len ≤ ptr + 1 then .err .DhcpOptionLenOutOfBounds
        else parseOptionsLoop len data fuel (ptr + 2 + data (ptr + 1)) mt opts

/-- `Dhcp::parse` from `src/src/dhcp.rs`: header checks, the option scan,
the mandatory-message-type check, then the fixed-offset field reads.
`data` is the datagram as a byte function with explicit length `len`;
`fuel` bounds the option loop (see `parseOptionsLoop`). -/
def Dhcp.parse (len : Nat) (data : Nat → Byte) (fuel : Nat) : Outcome Error Dhcp :=
  if len < 240 then .err (.PayloadTooShort len)
  else if data 0 ≠ 1 then .err (.NotADhcpRequest (data 0))
  else if ¬ (data 236 = 0x63 ∧ data 237 = 0x82 ∧ data 238 = 0x53 ∧ data 239 = 0x63) then
    .err .DhcpMagicMissing
  else
    match parseOptionsLoop len data fuel 240 .Unset OptionMap.empty with
    | .ok (mt, opts) =>
        if mt = .Unset then .err .NoMessageDhcpTypeProvided
        else .ok {
          op_code := data 0
          hw_addr_ty := data 1
          hw_addr_len := data 2
          hops := data 3
          transaction_id := readBytes data 4 4
          secs := readBytes data 8 2
          flags := readBytes data 10 2
          client_addr := readBytes data 12 4
          server_addr := readBytes data 16 4
          next_server_addr := readBytes data 20 4
          relay_addr := readBytes data 24 4
          client_hw_addr := readBytes data 28 6
          server_hostname := readBytes data 44 64
          file := readBytes data 108 128
          options := opts
          message_type := mt }
    | .err e => .err e
    | .panic => .panic
    | .hang => .hang

/-- The serialisation loop of `Dhcp::set_options`: for each slot of the
consumed option array in ascending opcode order, skip empty slots and
write present options at the cursor; an option the encoder cannot
serialise panics (`todo!` in `DhcpOption::serialise`), modelled `none`. -/
def setOptionsLoop : List (Option DhcpOption) → (Nat → Byte) → Nat →
    Option ((Nat → Byte) × Nat)
  | [], buf, ptr => some (buf, ptr)
  | none :: rest, buf, ptr => setOptionsLoop rest buf ptr
  | some o :: rest, buf, ptr =>
      match o.serialiseBytes with
      | none => none
      | some bs => setOptionsLoop rest (writeBytes buf ptr bs) (ptr + bs.length)

/-- `Dhcp::set_options`: iterate `self.options.consume()` (the
opcode-indexed array, ascending) from offset 240 and return the final
cursor as the datagram length. -/
def Dhcp.set_options (d : Dhcp) (buf : Nat → Byte) : Option ((Nat → Byte) × Nat) :=
  setOptionsLoop ((List.range 256).map d.options) buf 240

/-- `Dhcp::serialiase` from `src/src/dhcp.rs` lines 494-507: writes the
header fields at their fixed offsets (note: `client_addr` goes to
16..20, the yiaddr slot, and `server_addr` to 20..24, the siaddr slot;
`secs`, ciaddr 12..16, giaddr 24..28, sname and file are never written),
then the magic and the options.  The caller supplies a zeroed buffer. -/
def Dhcp.serialiase (d : Dhcp) (buffer : Nat → Byte) : Option ((Nat → Byte) × Nat) :=
  let buffer := upd buffer 0 d.op_code
  let buffer := upd buffer 1 d.hw_addr_ty
  let buffer := upd buffer 2 d.hw_addr_len
  let buffer := upd buffer 3 d.hops
  let buffer := writeBytes buffer 4 d.transaction_id
  let buffer := writeBytes buffer 10 d.flags
  let buffer := writeBytes buffer 16 d.client_addr
  let buffer := writeBytes buffer 20 d.server_addr
  let buffer := writeBytes buffer 28 d.client_hw_addr
  let buffer := writeBytes buffer 236 [0x63, 0x82, 0x53, 0x63]
  d.set_options buffer

/-- An IPv4 address as its `u32` value from big-endian octets
(`Ipv4Addr::from([a, b, c, d])`; `BTreeMap<Ipv4Addr, _>` orders by this
value). -/
def ipv4 (a b c d : Nat) : Nat :=
  ((a * 256 + b) * 256 + c) * 256 + d

/-- `Ipv4Addr::from([u8; 4])` on a 4-byte list (all call sites pass
exactly 4 bytes). -/
def ipNum : List Byte → Nat
  | [a, b, c, d] => ipv4 a b c d
  | _ => 0

/-- `Ipv4Addr::octets`. -/
def ipOctets (n : Nat) : List Byte :=
  [n / 16777216 % 256, n / 65536 % 256, n / 256 % 256, n % 256]

/-- `Client` from `src/src/state.rs`: a lease binding a 6-byte MAC to an
absolute expiry time (`SystemTime` as `Nat` seconds). -/
structure Client where
  mac_address : List Byte
  expires : Nat
deriving DecidableEq

/-- Modelled from the spec (S4.4): the `DEFAULT_LEASE_TIME` constant that
`state.rs` imports from the crate root; it is absent from the snapshot's
`main.rs`.  The spec gives the compile-time default 43200 s. -/
def DEFAULT_LEASE_TIME : Nat := 43200

/-- `AddrPool` from `src/src/state.rs`.  The `BTreeMap<Ipv4Addr,
Option<Client>>` is an association list sorted ascending by address, so
iteration order matches the source. -/
structure AddrPool where
  subnet : Nat
  pool : List (Nat × Option Client)
  options : OptionMap

/-- Lease time drawn from the pool's `LeaseTime` default if present, else
`DEFAULT_LEASE_TIME` (the match at the top of `allocate_address` and
`evict_oldest_lease`). -/
def AddrPool.leaseTime (p : AddrPool) : Nat :=
  match p.options.get 51 with
  | some (.LeaseTime time) => time
  | _ => DEFAULT_LEASE_TIME

/-- `AddrPool::lookup_mac`: first (lowest) address whose lease holds the
MAC. -/
def AddrPool.lookup_mac (p : AddrPool) (mac_addr : List Byte) : Option Nat :=
  (p.pool.find? fun e =>
    match e.2 with
    | some client => client.mac_address = mac_addr
    | none => false).map Prod.fst

/-- The mutation inside `allocate_address`: walk the map in ascending
order, install a lease in the first empty slot. -/
def allocateAux (mac : List Byte) (expires : Nat) :
    List (Nat × Option Client) → Option (Nat × List (Nat × Option Client))
  | [] => none
  | (ip, none) :: rest => some (ip, (ip, some ⟨mac, expires⟩) :: rest)
  | e :: rest => (allocateAux mac expires rest).map fun r => (r.1, e :: r.2)

/-- `AddrPool::allocate_address`: `none` is the internal
`AllIPAddressesExhausted` case (printed, not returned). -/
def AddrPool.allocate_address (p : AddrPool) (mac_address : List Byte) (now : Nat) :
    Option (Nat × AddrPool) :=
  (allocateAux mac_address (now + p.leaseTime) p.pool).map fun r =>
    (r.1, { p with pool := r.2 })

/-- `Iterator::min_by_key` on `expires` over the leased entries: the first
minimum wins. -/
def minByExpires (l : List (Nat × Client)) : Option (Nat × Client) :=
  l.foldl (fun acc e =>
    match acc with
    | none => some e
    | some best => if e.2.expires < best.2.expires then some e else some best) none

/-- `BTreeMap::insert`: replace the value at an existing key, else insert
keeping the keys sorted. -/
def setKey : List (Nat × Option Client) → Nat → Option Client →
    List (Nat × Option Client)
  | [], k, v => [(k, v)]
  | (k', v') :: rest, k, v =>
      if k = k' then (k, v) :: rest
      else if k < k' then (k, v) :: (k', v') :: rest
      else (k', v') :: setKey rest k v

/-- `AddrPool::evict_oldest_lease`: pick the leased entry with the minimum
`expires` (`.unwrap()` panics — `none` — when no lease exists at all) and
re-lease its address to `mac_address`. -/
def AddrPool.evict_oldest_lease (p : AddrPool) (mac_address : List Byte) (now : Nat) :
    Option (Nat × AddrPool) :=
  let leased := p.pool.filterMap fun e => e.2.map fun c => (e.1, c)
  match minByExpires leased with
  | none => none
  | some victim =>
      some (victim.1,
        { p with pool := setKey p.pool victim.1 (some ⟨mac_address, now + p.leaseTime⟩) })

/-- `AddrPool::request`: lease lookup by MAC, else first-free allocation,
else eviction of the oldest lease.  The outer `none` is the eviction
panic on an empty pool. -/
def AddrPool.request (p : AddrPool) (mac_address : List Byte) (now : Nat) :
    Option (Nat × AddrPool) :=
  match p.lookup_mac mac_address with
  | some ip => some (ip, p)
  | none =>
      match p.allocate_address mac_address now with
      | some r => some r
      | none => p.evict_oldest_lease mac_address now

/-- `AddrPool::verify_request`: `Some(())` iff the pool holds a lease at
`ip_addr` whose MAC is `mac_address`. -/
def AddrPool.verify_request (p : AddrPool) (mac_address : List Byte) (ip_addr : Nat) :
    Option Unit :=
  match (p.pool.find? fun e => e.1 = ip_addr).map Prod.snd with
  | some (some client) => if client.mac_address = mac_address then some () else none
  | _ => none

/-- `AddrPool::initialise_range` from `src/src/state.rs` lines 137-162:
per-octet `u8` subtraction (which panics on underflow in a debug build —
`none` here), then four nested inclusive loops inserting
`start + delta` octet-wise.  The loops emit keys in ascending order, so
the resulting `BTreeMap` is this list. -/
def initialise_range (s0 s1 s2 s3 e0 e1 e2 e3 : Nat) :
    Option (List (Nat × Option Client)) :=
  if e0 < s0 ∨ e1 < s1 ∨ e2 < s2 ∨ e3 < s3 then none
  else some <|
    (List.range (e0 - s0 + 1)).flatMap fun i =>
      (List.range (e1 - s1 + 1)).flatMap fun ii =>
        (List.range (e2 - s2 + 1)).flatMap fun iii =>
          (List.range (e3 - s3 + 1)).map fun iiii =>
            (ipv4 (s0 + i) (s1 + ii) (s2 + iii) (s3 + iiii), (none : Option Client))

/-- `AddrPool::new`: subnet-mask default plus `End` in the option list,
pool from `initialise_range` (whose panic propagates). -/
def AddrPool.new (subnet : Nat) (mask : List Byte)
    (s0 s1 s2 s3 e0 e1 e2 e3 : Nat) : Option AddrPool :=
  (initialise_range s0 s1 s2 s3 e0 e1 e2 e3).map fun pool =>
    { subnet := subnet
      pool := pool
      options := (OptionMap.empty.add (.SubnetMask mask)).add .End }

/-- `Dhcp::build_response`: the reply template. -/
def Dhcp.build_response (d : Dhcp) : Dhcp where
  op_code := 2
  hw_addr_ty := 1
  hw_addr_len := 6
  hops := 0
  transaction_id := d.transaction_id
  secs := [0, 0]
  flags := [0, 0]
  client_addr := [0, 0, 0, 0]
  server_addr := [0, 0, 0, 0]
  next_server_addr := [0, 0, 0, 0]
  relay_addr := [0, 0, 0, 0]
  client_hw_addr := d.client_hw_addr
  server_hostname := List.replicate 64 0
  file := List.replicate 128 0
  options := OptionMap.empty
  message_type := .Unset

/-- The closure `insert_matching_options` of
`Dhcp::insert_requested_options`: add the default stored at the
requested opcode (`pool.options().consume()[*req_option as usize]`) if
present, else warn and skip. -/
def insertStep (defaults : OptionMap) (acc : OptionMap)
    (req_option : ParameterRequest) : OptionMap :=
  match defaults.get req_option.val with
  | some opt => acc.add opt
  | none => acc

/-- `Dhcp::insert_requested_options`: run `insert_matching_options` over
the present entries (`iter().flatten()`) of the client's
`ParameterRequestList`. -/
def Dhcp.insert_requested_options (d : Dhcp) (pool : AddrPool) (res : OptionMap) :
    OptionMap :=
  match d.options.get 55 with
  | some (.ParameterRequestList option_req_list) =>
      (option_req_list.filterMap id).foldl (insertStep pool.options) res
  | _ => res

/-- `Dhcp::insert_server_addr`: when the pool defaults hold a
`DhcpServerIpAddr`, copy it into `res.server_addr` and add the option. -/
def Dhcp.insert_server_addr (pool : AddrPool) (res : Dhcp) : Dhcp :=
  match pool.options.get 54 with
  | some (.DhcpServerIpAddr addr) =>
      { res with server_addr := addr, options := res.options.add (.DhcpServerIpAddr addr) }
  | _ => res

/-- `Dhcp::insert_lease`: add the pool's `LeaseTime` default if present. -/
def Dhcp.insert_lease (pool : AddrPool) (res : OptionMap) : OptionMap :=
  match pool.options.get 51 with
  | some (.LeaseTime lease) => res.add (.LeaseTime lease)
  | _ => res

/-- `Dhcp::offer` (the Discover handler): response template, address from
`pool.request` into `client_addr` (which `serialiase` emits at the
yiaddr offset), requested options, lease, server address, then
`MessageType(Offer)` and `End`.  The `none` case propagates a pool
panic. -/
def Dhcp.offer (d : Dhcp) (pool : AddrPool) (now : Nat) : Option (Dhcp × AddrPool) :=
  match pool.request d.client_hw_addr now with
  | none => none
  | some (ip, pool) =>
      let res := d.build_response
      let res := { res with client_addr := ipOctets ip }
      let res := { res with options := d.insert_requested_options pool res.options }
      let res := { res with options := Dhcp.insert_lease pool res.options }
      let res := Dhcp.insert_server_addr pool res
      let res := { res with
        options := (res.options.add (.MessageType .Offer)).add .End }
      some (res, pool)

/-- `Dhcp::ack`: requested options, server address, then
`MessageType(Ack)` and `End` on the given response. -/
def Dhcp.ack (d : Dhcp) (pool : AddrPool) (res : Dhcp) : Dhcp :=
  let res := { res with options := d.insert_requested_options pool res.options }
  let res := Dhcp.insert_server_addr pool res
  { res with options := (res.options.add (.MessageType .Ack)).add .End }

/-- `Dhcp::nack`: `MessageType(Nack)` and `End` on the given response. -/
def Dhcp.nack (res : Dhcp) : Dhcp :=
  { res with options := (res.options.add (.MessageType .Nack)).add .End }

/-- `Dhcp::verify` (the Request handler): RENEWING/REBINDING when ciaddr
is set and no `RequestedIpAddr` was sent; SELECTING/INIT-REBOOT when a
`RequestedIpAddr` is present and `verify_request` holds; otherwise
Nack. -/
def Dhcp.verify (d : Dhcp) (pool : AddrPool) : Dhcp :=
  let res := d.build_response
  let requested_ip := d.options.get 50
  let client_mac := d.client_hw_addr
  if d.client_addr ≠ [0, 0, 0, 0] ∧ requested_ip = none then
    d.ack pool { res with client_addr := d.client_addr }
  else
    match requested_ip with
    | some (.RequestedIpAddr ip) =>
        if (pool.verify_request client_mac (ipNum ip)).isSome then
          d.ack pool { res with client_addr := ip }
        else Dhcp.nack res
    | _ => Dhcp.nack res

/-- `Dhcp::handle`: Discover and Request are served; every other message
type runs `todo!` and panics the worker (`none`).  Returns the written
buffer, the datagram length and the updated pool. -/
def Dhcp.handle (d : Dhcp) (pool : AddrPool) (now : Nat) (buffer : Nat → Byte) :
    Option ((Nat → Byte) × Nat × AddrPool) :=
  match d.message_type with
  | .Discover =>
      match d.offer pool now with
      | none => none
      | some (offer, pool) =>
          (offer.serialiase buffer).map fun r => (r.1, r.2, pool)
  | .Request =>
      ((d.verify pool).serialiase buffer).map fun r => (r.1, r.2, pool)
  | _ => none

/-! ## Concrete inputs used by the claims -/

/-- A 242-byte datagram: valid fixed header (op 1, magic present),
followed by the option bytes `[61, 7]` — a `ClientIdentifier` option
whose length byte claims 7 payload bytes that the datagram does not
contain. -/
def c1data : Nat → Byte := fun i =>
  if i = 0 then 1
  else if i = 236 then 0x63
  else if i = 237 then 0x82
  else if i = 238 then 0x53
  else if i = 239 then 0x63
  else if i = 240 then 61
  else if i = 241 then 7
  else 0

/-- C1: For every input byte slice, parse either returns a Packet or
returns one of the named error kinds; it never panics.  The code
violates this: on `c1data` the `CLIENT_ID` arm evaluates
`&data[242..249]` on a 242-byte datagram, an out-of-bounds slice index
that panics the worker (src/src/dhcp.rs line 284). -/
theorem c1_parse_panics : Dhcp.parse 242 c1data 242 = .panic := rfl

/-- A successfully parsed packet whose message type is `Decline`. -/
def dDecline : Dhcp where
  op_code := 1
  hw_addr_ty := 1
  hw_addr_len := 6
  hops := 0
  transaction_id := [0, 0, 0, 1]
  secs := [0, 0]
  flags := [0, 0]
  client_addr := [0, 0, 0, 0]
  server_addr := [0, 0, 0, 0]
  next_server_addr := [0, 0, 0, 0]
  relay_addr := [0, 0, 0, 0]
  client_hw_addr := [1, 2, 3, 4, 5, 6]
  server_hostname := List.replicate 64 0
  file := List.replicate 128 0
  options := OptionMap.empty.add .End
  message_type := .Decline

/-- A pool used by the `handle` evaluation. -/
def poolC8 : AddrPool where
  subnet := ipv4 192 168 1 0
  pool := [(ipv4 192 168 1 100, none)]
  options := (OptionMap.empty.add (.SubnetMask [255, 255, 255, 0])).add .End

/-- C8: handle was claimed to ignore Decline/Release/Inform packets or
return no datagram without crashing the worker.  The code instead hits
`todo!(...)` (src/src/dhcp.rs line 541), which panics: evaluated on a
parsed Decline packet, `handle` panics (`none`). -/
theorem c8_handle_decline_panics :
    dDecline.handle poolC8 0 (fun _ => 0) = none := rfl

/-! ## C3: the option list in `src/src/types/dhcp_option.rs` appends -/

/-- Two options with the same opcode (53) added to a fresh source
`DhcpOptionList`. -/
def c3list : Option DhcpOptionList :=
  (DhcpOptionList.builder.add (.MessageType .Discover)).bind fun l =>
    l.add (.MessageType .Offer)

/-- C3 counterexample: `DhcpOptionList::add` (src/src/types/dhcp_option.rs
lines 199-203) does not replace the previous entry at an opcode: after
adding two `MessageType` options (opcode 53), the built array still holds
both, at indices 0 and 1 — not at most one option per opcode. -/
theorem c3_counterexample :
    (c3list.map fun l => (l.build.filterMap id).countP fun o => o.opcode = 53)
        = some 2 ∧
    (c3list.map fun l => l.build.take 2) =
        some [some (.MessageType .Discover), some (.MessageType .Offer)] := by
  decide

/-- C3 amended: the `DhcpOptionList` present in the source is append-only:
as long as the capacity 20 is not exceeded, adding two options (any
opcodes, equal or not) stores the first at index `count` and the second at
`count + 1`, both retained, and increments `count` by two. -/
theorem c3_amended (l : DhcpOptionList) (o1 o2 : DhcpOption)
    (hcap : l.count + 1 < 20) (hlen : l.options.length = 20) :
    ∃ l2, (l.add o1).bind (fun x => x.add o2) = some l2 ∧
      l2.count = l.count + 2 ∧
      l2.build[l.count]? = some (some o1) ∧
      l2.build[l.count + 1]? = some (some o2) := by
  refine ⟨⟨l.count + 2, (l.options.set l.count (some o1)).set (l.count + 1) (some o2)⟩,
    ?_, rfl, ?_, ?_⟩
  · simp [DhcpOptionList.add, Nat.lt_of_succ_lt hcap, hcap]
  · rw [DhcpOptionList.build, List.getElem?_set_ne (by omega),
      List.getElem?_set_eq_of_lt _ (by rw [hlen]; omega)]
  · rw [DhcpOptionList.build,
      List.getElem?_set_eq_of_lt _ (by rw [List.length_set, hlen]; exact hcap)]

/-- C3 witness: the amended statement evaluated on a fresh builder. -/
theorem c3_amended_witness :
    DhcpOptionList.builder.count + 1 < 20 ∧
    DhcpOptionList.builder.options.length = 20 ∧
    ∃ l2, (DhcpOptionList.builder.add (.MessageType .Discover)).bind
        (fun x => x.add (.MessageType .Offer)) = some l2 ∧
      l2.count = DhcpOptionList.builder.count + 2 ∧
      l2.build[DhcpOptionList.builder.count]? = some (some (.MessageType .Discover)) ∧
      l2.build[DhcpOptionList.builder.count + 1]? = some (some (.MessageType .Offer)) :=
  ⟨by decide, by decide,
    c3_amended DhcpOptionList.builder (.MessageType .Discover) (.MessageType .Offer)
      (by decide) (by decide)⟩

/-! ## C9: exactly-one-MessageType -/

/-- The message type of a successful parse. -/
def mtypeOf : Outcome Error Dhcp → Option MessageType
  | .ok d => some d.message_type
  | _ => none

/-- A datagram with a valid fixed header and an empty option region. -/
def hdr0 : Nat → Byte := fun i =>
  if i = 0 then 1
  else if i = 236 then 0x63
  else if i = 237 then 0x82
  else if i = 238 then 0x53
  else if i = 239 then 0x63
  else 0

/-- Overwrite the option region of `data` with two `MessageType` options
(`t1`, then `t2`) followed by `End`; the datagram is then 247 bytes. -/
def withTwoMT (data : Nat → Byte) (t1 t2 : MessageType) : Nat → Byte :=
  writeBytes data 240 [53, 1, t1.toU8, 53, 1, t2.toU8, 255]

/-- C9 counterexample: a datagram carrying two `MessageType` options
(Discover then Request) is not rejected — `parse` succeeds, and the
recorded message type is the second one (the `MESSAGE_TYPE` arm
overwrites `message_type` on every occurrence,
src/src/dhcp.rs lines 113-127). -/
theorem c9_counterexample :
    (Dhcp.parse 247 (withTwoMT hdr0 .Discover .Request) 247).isOk = true ∧
    mtypeOf (Dhcp.parse 247 (withTwoMT hdr0 .Discover .Request) 247) =
      some .Request := by
  exact ⟨rfl, rfl⟩

/-- C9 amended: a datagram with no `MessageType` option fails with
`NoMessageDhcpTypeProvided` (here: any 240-byte datagram with a valid
header and empty option region), but a datagram with more than one
`MessageType` option is not rejected: with two such options the parse
succeeds and the last one wins. -/
theorem c9_amended (data : Nat → Byte) (fuel : Nat) (t1 t2 : MessageType)
    (h0 : data 0 = 1) (h236 : data 236 = 0x63) (h237 : data 237 = 0x82)
    (h238 : data 238 = 0x53) (h239 : data 239 = 0x63) (hf : 0 < fuel)
    (ht1 : t1 ≠ .Unset) (ht2 : t2 ≠ .Unset) :
    Dhcp.parse 240 data fuel = .err .NoMessageDhcpTypeProvided ∧
    mtypeOf (Dhcp.parse 247 (withTwoMT data t1 t2) 247) = some t2 := by
  constructor
  · obtain ⟨fuel, rfl⟩ : ∃ k, fuel = k + 1 := ⟨fuel - 1, by omega⟩
    simp [Dhcp.parse, parseOptionsLoop, h0, h236, h237, h238, h239]
  · cases t1 <;> cases t2 <;>
      first
      | exact absurd rfl ht1
      | exact absurd rfl ht2
      | simp [Dhcp.parse, parseOptionsLoop, withTwoMT, writeBytes, upd, mtypeOf,
          MessageType.tryFrom, MessageType.toU8, h0, h236, h237, h238, h239]

/-- C9 witness: the amended statement evaluated on the concrete header
`hdr0`, `t1 = Discover`, `t2 = Request`. -/
theorem c9_amended_witness :
    hdr0 0 = 1 ∧ hdr0 236 = 0x63 ∧ hdr0 237 = 0x82 ∧ hdr0 238 = 0x53 ∧
    hdr0 239 = 0x63 ∧ (0 : Nat) < 240 ∧
    (MessageType.Discover ≠ .Unset) ∧ (MessageType.Request ≠ .Unset) ∧
    (Dhcp.parse 240 hdr0 240 = .err .NoMessageDhcpTypeProvided ∧
     mtypeOf (Dhcp.parse 247 (withTwoMT hdr0 .Discover .Request) 247) =
       some .Request) :=
  ⟨rfl, rfl, rfl, rfl, rfl, by decide, by decide, by decide,
   c9_amended hdr0 240 .Discover .Request rfl rfl rfl rfl rfl (by decide)
     (by decide) (by decide)⟩

/-! ## C2: parse-serialize round trip -/

/-- The zeroed response buffer supplied by `handle_request`. -/
def zeroBuf : Nat → Byte := fun _ => 0

/-- A valid packet whose options (`MessageType`, `End`) use only
encoder-supported opcodes. -/
def p0 : Dhcp where
  op_code := 1
  hw_addr_ty := 1
  hw_addr_len := 6
  hops := 0
  transaction_id := [0xAA, 0xBB, 0xCC, 0xDD]
  secs := [0, 0]
  flags := [0, 0]
  client_addr := [1, 2, 3, 4]
  server_addr := [0, 0, 0, 0]
  next_server_addr := [0, 0, 0, 0]
  relay_addr := [0, 0, 0, 0]
  client_hw_addr := [1, 2, 3, 4, 5, 6]
  server_hostname := List.replicate 64 0
  file := List.replicate 128 0
  options := (OptionMap.empty.add (.MessageType .Discover)).add .End
  message_type := .Discover

/-- `parse(serialize(p0))` into a zeroed buffer. -/
def roundtripP0 : Outcome Error Dhcp :=
  match p0.serialiase zeroBuf with
  | some (buf, n) => Dhcp.parse n buf n
  | none => .panic

/-- C2 counterexample: `parse(serialize(p)) = p` fails on `p0`:
`serialiase` never writes ciaddr (it emits `client_addr` at the yiaddr
offset 16..20), so the reparsed packet's `client_addr` is `[0,0,0,0]`,
not `p0`'s `[1,2,3,4]` (and the `MessageType` option moves out of the
option list into the `message_type` field). -/
theorem c2_counterexample : roundtripP0 ≠ .ok p0 := by
  intro h
  have h2 : (match roundtripP0 with | .ok q => q.client_addr | _ => []) =
      p0.client_addr := by rw [h]
  have h3 : (match roundtripP0 with | .ok q => q.client_addr | _ => []) =
      [0, 0, 0, 0] := rfl
  rw [h3, p0] at h2
  simp at h2

/-- C2 amended: full round-trip equality fails, but for a request-op
packet whose option list is exactly a valid `MessageType` plus `End`,
reparsing the serialization succeeds and preserves `op_code`,
`hw_addr_ty`, `hw_addr_len`, `hops`, `transaction_id`, `flags` and
`client_hw_addr`, and recovers the message type; the remaining fields are
shifted or lost by the serializer's fixed offsets: ciaddr comes back
zero, the ciaddr field reappears in the yiaddr slot, the yiaddr field in
the siaddr slot, and `secs`, giaddr, sname and file are zeroed; the
`MessageType` option is removed from the reparsed option list. -/
theorem c2_amended
    (htype hlen hops x0 x1 x2 x3 f0 f1 ci0 ci1 ci2 ci3 y0 y1 y2 y3
      m0 m1 m2 m3 m4 m5 : Nat)
    (sc ns ra sn fl : List Byte) (t mt0 : MessageType) (ht : t ≠ .Unset) :
    (Dhcp.serialiase
      { op_code := 1, hw_addr_ty := htype, hw_addr_len := hlen, hops := hops
        transaction_id := [x0, x1, x2, x3], secs := sc, flags := [f0, f1]
        client_addr := [ci0, ci1, ci2, ci3], server_addr := [y0, y1, y2, y3]
        next_server_addr := ns, relay_addr := ra
        client_hw_addr := [m0, m1, m2, m3, m4, m5]
        server_hostname := sn, file := fl
        options := (OptionMap.empty.add (.MessageType t)).add .End
        message_type := mt0 } zeroBuf).elim Outcome.panic
      (fun r => Dhcp.parse r.2 r.1 r.2)
    = .ok
      { op_code := 1, hw_addr_ty := htype, hw_addr_len := hlen, hops := hops
        transaction_id := [x0, x1, x2, x3], secs := [0, 0], flags := [f0, f1]
        client_addr := [0, 0, 0, 0], server_addr := [ci0, ci1, ci2, ci3]
        next_server_addr := [y0, y1, y2, y3], relay_addr := [0, 0, 0, 0]
        client_hw_addr := [m0, m1, m2, m3, m4, m5]
        server_hostname := List.replicate 64 0, file := List.replicate 128 0
        options := OptionMap.empty.add .End
        message_type := t } := by
  cases t <;> first | exact absurd rfl ht | rfl

/-- C2 witness: the amended round-trip statement on concrete bytes. -/
theorem c2_amended_witness :
    (MessageType.Discover ≠ MessageType.Unset) ∧
    (Dhcp.serialiase
      { op_code := 1, hw_addr_ty := 1, hw_addr_len := 6, hops := 0
        transaction_id := [0xAA, 0xBB, 0xCC, 0xDD], secs := [9, 9], flags := [0, 1]
        client_addr := [1, 2, 3, 4], server_addr := [5, 6, 7, 8]
        next_server_addr := [11, 12, 13, 14], relay_addr := [15, 16, 17, 18]
        client_hw_addr := [1, 2, 3, 4, 5, 6]
        server_hostname := List.replicate 64 7, file := List.replicate 128 8
        options := (OptionMap.empty.add (.MessageType .Discover)).add .End
        message_type := .Discover } zeroBuf).elim Outcome.panic
      (fun r => Dhcp.parse r.2 r.1 r.2)
    = .ok
      { op_code := 1, hw_addr_ty := 1, hw_addr_len := 6, hops := 0
        transaction_id := [0xAA, 0xBB, 0xCC, 0xDD], secs := [0, 0], flags := [0, 1]
        client_addr := [0, 0, 0, 0], server_addr := [1, 2, 3, 4]
        next_server_addr := [5, 6, 7, 8], relay_addr := [0, 0, 0, 0]
        client_hw_addr := [1, 2, 3, 4, 5, 6]
        server_hostname := List.replicate 64 0, file := List.replicate 128 0
        options := OptionMap.empty.add .End
        message_type := .Discover } :=
  ⟨by decide,
   c2_amended 1 6 0 0xAA 0xBB 0xCC 0xDD 0 1 1 2 3 4 5 6 7 8 1 2 3 4 5 6
     [9, 9] [11, 12, 13, 14] [15, 16, 17, 18] (List.replicate 64 7)
     (List.replicate 128 8) .Discover .Discover (by decide)⟩

/-! ## C4: requested options in the Offer -/

/-- Slot-consistency of an opcode-indexed option map: every stored option
sits in the slot of its own opcode (which `OptionMap.add` maintains). -/
def OptionMap.WF (m : OptionMap) : Prop :=
  ∀ k o, m k = some o → o.opcode = k

/-- `OptionMap.empty` is slot-consistent. -/
theorem OptionMap.WF.empty : OptionMap.WF OptionMap.empty := by
  intro k o h
  exact absurd h (by simp [OptionMap.empty])

/-- `OptionMap.add` preserves slot-consistency. -/
theorem OptionMap.WF.add {m : OptionMap} (h : m.WF) (o : DhcpOption) :
    (m.add o).WF := by
  intro k o2 h2
  unfold OptionMap.add at h2
  by_cases heq : k = o.opcode
  · rw [if_pos heq] at h2
    cases h2
    exact heq.symm
  · rw [if_neg heq] at h2
    exact h k o2 h2

/-- A fold of `insert_matching_options` never touches a slot whose default
is empty. -/
theorem foldl_insertStep_of_none (defaults : OptionMap) (hwf : defaults.WF)
    (k : Nat) (hk : defaults k = none) :
    ∀ (ps : List ParameterRequest) (acc : OptionMap),
      ps.foldl (insertStep defaults) acc k = acc k := by
  intro ps
  induction ps with
  | nil => intro acc; rfl
  | cons q ps ih =>
    intro acc
    rw [List.foldl_cons, ih]
    unfold insertStep
    cases hq : defaults.get q.val with
    | none => rfl
    | some opt =>
        show OptionMap.add acc opt k = acc k
        unfold OptionMap.add
        rw [if_neg]
        intro heq
        rw [heq, hwf _ _ hq] at hk
        rw [OptionMap.get] at hq
        exact absurd hk (by rw [hq]; exact Option.noConfusion)

/-- A fold of `insert_matching_options` keeps a slot that already agrees
with its default. -/
theorem foldl_insertStep_of_eq (defaults : OptionMap) (hwf : defaults.WF)
    (k : Nat) :
    ∀ (ps : List ParameterRequest) (acc : OptionMap), acc k = defaults k →
      ps.foldl (insertStep defaults) acc k = defaults k := by
  intro ps
  induction ps with
  | nil => intro acc hacc; exact hacc
  | cons q ps ih =>
    intro acc hacc
    rw [List.foldl_cons]
    apply ih
    unfold insertStep
    cases hq : defaults.get q.val with
    | none => exact hacc
    | some opt =>
        show OptionMap.add acc opt k = defaults k
        unfold OptionMap.add
        split
        · rename_i heq
          rw [heq, hwf _ _ hq]
          rw [OptionMap.get] at hq
          exact hq.symm
        · exact hacc

/-- After `insert_matching_options` runs over a request list containing
`p`, the slot at `p`'s opcode holds exactly the pool default stored
there (provided the slot started empty or already agreed). -/
theorem foldl_insertStep_of_mem (defaults : OptionMap) (hwf : defaults.WF)
    (p : ParameterRequest) :
    ∀ (ps : List ParameterRequest) (acc : OptionMap), p ∈ ps →
      (acc p.val = none ∨ acc p.val = defaults p.val) →
      ps.foldl (insertStep defaults) acc p.val = defaults p.val := by
  intro ps
  induction ps with
  | nil => intro acc hp _; exact absurd hp (List.not_mem_nil p)
  | cons q ps ih =>
    intro acc hp hacc
    rw [List.foldl_cons]
    have hacc2 : insertStep defaults acc q p.val = none ∨
        insertStep defaults acc q p.val = defaults p.val := by
      unfold insertStep
      cases hq : defaults.get q.val with
      | none => exact hacc
      | some opt =>
          show OptionMap.add acc opt p.val = none ∨
            OptionMap.add acc opt p.val = defaults p.val
          unfold OptionMap.add
          by_cases hpq : p.val = opt.opcode
          · right
            rw [if_pos hpq, hpq, hwf _ _ hq]
            rw [OptionMap.get] at hq
            exact hq.symm
          · rw [if_neg hpq]
            exact hacc
    rcases List.mem_cons.mp hp with rfl | hp2
    · apply foldl_insertStep_of_eq defaults hwf _ ps
      rcases hacc2 with h2 | h2
      · rw [h2]
        cases hd : defaults p.val with
        | none => rfl
        | some o =>
            exfalso
            unfold insertStep at h2
            rw [show defaults.get p.val = some o from hd] at h2
            have h3 : (if p.val = o.opcode then some o else acc p.val) = none := h2
            rw [if_pos (hwf _ _ hd).symm] at h3
            exact Option.noConfusion h3
      · exact h2
    · exact ih _ hp2 hacc2

/-- `AddrPool::request` never changes the pool's default option list. -/
theorem AddrPool.request_options_eq (p : AddrPool) (mac : List Byte) (now : Nat)
    (ip : Nat) (q : AddrPool) (h : p.request mac now = some (ip, q)) :
    q.options = p.options := by
  unfold AddrPool.request at h
  cases hl : p.lookup_mac mac with
  | some ip2 =>
      simp only [hl] at h
      cases h
      rfl
  | none =>
      simp only [hl] at h
      cases ha : p.allocate_address mac now with
      | some r =>
          simp only [ha] at h
          cases h
          unfold AddrPool.allocate_address at ha
          cases haux : allocateAux mac (now + p.leaseTime) p.pool with
          | none => simp [haux] at ha
          | some r2 =>
              simp only [haux, Option.map_some'] at ha
              cases ha
              rfl
      | none =>
          simp only [ha] at h
          unfold AddrPool.evict_oldest_lease at h
          cases hm : minByExpires (p.pool.filterMap fun e => e.2.map fun c => (e.1, c)) with
          | none => simp [hm] at h
          | some victim =>
              simp only [hm] at h
              cases h
              rfl

/-- No requestable parameter has the opcode of `MessageType` (53) or
`End` (255). -/
theorem ParameterRequest.val_ne (p : ParameterRequest) :
    p.val ≠ 53 ∧ p.val ≠ 255 := by
  cases p <;> exact (by decide)

/-- The only option stored at slot 54 of a slot-consistent map is a
`DhcpServerIpAddr`. -/
theorem opcode54_inv (o : DhcpOption) (h : o.opcode = 54) :
    ∃ a, o = .DhcpServerIpAddr a := by
  cases o <;> simp_all [DhcpOption.opcode]

/-- The only option stored at slot 51 of a slot-consistent map is a
`LeaseTime`. -/
theorem opcode51_inv (o : DhcpOption) (h : o.opcode = 51) :
    ∃ t, o = .LeaseTime t := by
  cases o <;> simp_all [DhcpOption.opcode]

/-- `insert_server_addr` only writes option slot 54. -/
theorem insert_server_addr_get_ne (pool : AddrPool) (res : Dhcp) (k : Nat)
    (hk : k ≠ 54) :
    (Dhcp.insert_server_addr pool res).options.get k = res.options.get k := by
  unfold Dhcp.insert_server_addr
  cases h54 : pool.options.get 54 with
  | none => rfl
  | some o =>
      cases o <;>
        first
        | rfl
        | simp [OptionMap.get, OptionMap.add, DhcpOption.opcode, hk]

/-- At slot 54, `insert_server_addr` installs the pool default when one is
present (slot-consistency makes it a `DhcpServerIpAddr`). -/
theorem insert_server_addr_get_54 (pool : AddrPool) (res : Dhcp)
    (hwf : pool.options.WF) :
    (Dhcp.insert_server_addr pool res).options.get 54 =
      if (pool.options.get 54).isSome then pool.options.get 54
      else res.options.get 54 := by
  unfold Dhcp.insert_server_addr
  cases h54 : pool.options.get 54 with
  | none => simp [h54]
  | some o =>
      obtain ⟨a, rfl⟩ := opcode54_inv o (hwf _ _ h54)
      simp [h54, OptionMap.get, OptionMap.add, DhcpOption.opcode]

/-- `insert_lease` only writes option slot 51. -/
theorem insert_lease_get_ne (pool : AddrPool) (res : OptionMap) (k : Nat)
    (hk : k ≠ 51) :
    (Dhcp.insert_lease pool res).get k = res.get k := by
  unfold Dhcp.insert_lease
  cases h51 : pool.options.get 51 with
  | none => rfl
  | some o =>
      cases o <;>
        first
        | rfl
        | simp [OptionMap.get, OptionMap.add, DhcpOption.opcode, hk]

/-- At slot 51, `insert_lease` installs the pool default when one is
present. -/
theorem insert_lease_get_51 (pool : AddrPool) (res : OptionMap)
    (hwf : pool.options.WF) :
    (Dhcp.insert_lease pool res).get 51 =
      if (pool.options.get 51).isSome then pool.options.get 51
      else res.get 51 := by
  unfold Dhcp.insert_lease
  cases h51 : pool.options.get 51 with
  | none => simp [h51]
  | some o =>
      obtain ⟨t, rfl⟩ := opcode51_inv o (hwf _ _ h51)
      simp [h51, OptionMap.get, OptionMap.add, DhcpOption.opcode]

/-- C4: when handling a Discover, for each opcode in the client's
`ParameterRequestList` the Offer's option slot at that opcode ends up
exactly equal to the pool's default entry there: the default is appended
when present, and nothing is appended for that opcode when absent
(`insert_requested_options`, used by `offer`).  `hwf` is the
slot-consistency invariant of the opcode-indexed default list. -/
theorem c4_offer_requested (d : Dhcp) (pool : AddrPool) (now : Nat)
    (prl : List (Option ParameterRequest)) (p : ParameterRequest)
    (res : Dhcp) (pool2 : AddrPool)
    (hprl : d.options.get 55 = some (.ParameterRequestList prl))
    (hwf : pool.options.WF)
    (hp : p ∈ prl.filterMap id)
    (hoffer : d.offer pool now = some (res, pool2)) :
    res.options.get p.val = pool.options.get p.val := by
  obtain ⟨hne53, hne255⟩ := ParameterRequest.val_ne p
  unfold Dhcp.offer at hoffer
  cases hreq : pool.request d.client_hw_addr now with
  | none =>
      rw [hreq] at hoffer
      exact Option.noConfusion hoffer
  | some r =>
      obtain ⟨ip, pool1⟩ := r
      rw [hreq] at hoffer
      have hopts : pool1.options = pool.options :=
        AddrPool.request_options_eq pool _ _ _ _ hreq
      simp only [Option.some.injEq, Prod.mk.injEq] at hoffer
      obtain ⟨hres, -⟩ := hoffer
      subst hres
      -- peel the final `MessageType(Offer)` and `End` additions
      show (OptionMap.add (OptionMap.add _ (.MessageType .Offer)) .End).get p.val
        = pool.options.get p.val
      rw [show ∀ m : OptionMap, (OptionMap.add m .End).get p.val = m.get p.val from
        fun m => by simp [OptionMap.get, OptionMap.add, DhcpOption.opcode, hne255]]
      rw [show ∀ m : OptionMap,
          (OptionMap.add m (.MessageType .Offer)).get p.val = m.get p.val from
        fun m => by simp [OptionMap.get, OptionMap.add, DhcpOption.opcode, hne53]]
      -- the requested-options fold puts the default into slot `p.val`
      have hfold : (Dhcp.insert_requested_options d pool1 OptionMap.empty).get p.val
          = pool.options.get p.val := by
        unfold Dhcp.insert_requested_options
        rw [hprl, hopts]
        exact foldl_insertStep_of_mem pool.options hwf p _ OptionMap.empty hp
          (Or.inl rfl)
      by_cases hk54 : p.val = 54
      · rw [hk54]
        rw [insert_server_addr_get_54 pool1 _ (hopts ▸ hwf)]
        rw [hopts]
        cases h54 : (pool.options.get 54).isSome
        · simp only [h54, if_neg Bool.false_ne_true]
          show (Dhcp.insert_lease pool1 _).get 54 = pool.options.get 54
          rw [insert_lease_get_ne pool1 _ 54 (by omega)]
          rw [← hk54]
          exact hfold
        · simp [h54]
      · rw [insert_server_addr_get_ne pool1 _ p.val hk54]
        show (Dhcp.insert_lease pool1 _).get p.val = pool.options.get p.val
        by_cases hk51 : p.val = 51
        · rw [hk51, insert_lease_get_51 pool1 _ (hopts ▸ hwf), hopts]
          cases h51 : (pool.options.get 51).isSome
          · simp only [h51, if_neg Bool.false_ne_true]
            rw [← hk51]
            exact hfold
          · simp [h51]
        · rw [insert_lease_get_ne pool1 _ p.val hk51]
          exact hfold

/-- A concrete parameter request list: the client asks for opcode 1. -/
def prl0 : List (Option ParameterRequest) := [some .SubnetMask]

/-- A concrete Discover packet requesting opcode 1. -/
def d0 : Dhcp where
  op_code := 1
  hw_addr_ty := 1
  hw_addr_len := 6
  hops := 0
  transaction_id := [0, 0, 0, 2]
  secs := [0, 0]
  flags := [0, 0]
  client_addr := [0, 0, 0, 0]
  server_addr := [0, 0, 0, 0]
  next_server_addr := [0, 0, 0, 0]
  relay_addr := [0, 0, 0, 0]
  client_hw_addr := [0xAA, 0xBB, 0xCC, 0xDD, 0xEE, 0xFF]
  server_hostname := List.replicate 64 0
  file := List.replicate 128 0
  options := OptionMap.empty.add (.ParameterRequestList prl0)
  message_type := .Discover

/-- A concrete one-address pool whose defaults hold a `SubnetMask` at
slot 1 (as `AddrPool::new` builds it). -/
def pool0 : AddrPool where
  subnet := ipv4 192 168 1 0
  pool := [(ipv4 192 168 1 100, none)]
  options := (OptionMap.empty.add (.SubnetMask [255, 255, 255, 0])).add .End

/-- The response of `offer` on the concrete Discover. -/
def offerRes0 : Dhcp :=
  match d0.offer pool0 0 with
  | some r => r.1
  | none => d0

/-- The pool after `offer` on the concrete Discover. -/
def offerPool0 : AddrPool :=
  match d0.offer pool0 0 with
  | some r => r.2
  | none => pool0

/-- C4 witness: the Offer built for `d0` over `pool0` carries exactly the
pool's default at the requested opcode 1. -/
theorem c4_offer_requested_witness :
    d0.options.get 55 = some (.ParameterRequestList prl0) ∧
    OptionMap.WF pool0.options ∧
    ParameterRequest.SubnetMask ∈ prl0.filterMap id ∧
    d0.offer pool0 0 = some (offerRes0, offerPool0) ∧
    offerRes0.options.get (ParameterRequest.SubnetMask).val =
      pool0.options.get (ParameterRequest.SubnetMask).val :=
  ⟨rfl, (OptionMap.WF.empty.add _).add _, by decide, rfl,
   c4_offer_requested d0 pool0 0 prl0 .SubnetMask offerRes0 offerPool0 rfl
     ((OptionMap.WF.empty.add _).add _) (by decide) rfl⟩

/-! ## C5: Request verification -/

/-- `insert_server_addr` leaves `client_addr` alone. -/
theorem insert_server_addr_client_addr (pool : AddrPool) (res : Dhcp) :
    (Dhcp.insert_server_addr pool res).client_addr = res.client_addr := by
  unfold Dhcp.insert_server_addr
  cases h : pool.options.get 54 with
  | none => rfl
  | some o => cases o <;> rfl

/-- An Ack reply always carries `MessageType(Ack)` at slot 53 (the final
two adds fix slots 53 and 255). -/
theorem ack_get53 (d : Dhcp) (pool : AddrPool) (res : Dhcp) :
    (d.ack pool res).options.get 53 = some (.MessageType .Ack) := by
  unfold Dhcp.ack
  simp [OptionMap.get, OptionMap.add, DhcpOption.opcode]

/-- `ack` leaves `client_addr` alone. -/
theorem ack_client_addr (d : Dhcp) (pool : AddrPool) (res : Dhcp) :
    (d.ack pool res).client_addr = res.client_addr := by
  simp only [Dhcp.ack]
  rw [insert_server_addr_client_addr]

/-- A Nack reply always carries `MessageType(Nack)` at slot 53. -/
theorem nack_get53 (res : Dhcp) :
    (Dhcp.nack res).options.get 53 = some (.MessageType .Nack) := by
  unfold Dhcp.nack
  simp [OptionMap.get, OptionMap.add, DhcpOption.opcode]

/-- C5: for a Request carrying a `RequestedIpAddr` option, `verify`
replies Ack with the requested address in `client_addr` (the field
`serialiase` emits at the yiaddr offset) exactly when
`pool.verify_request(chaddr, requested)` holds, and Nack otherwise. -/
theorem c5_request_verify (d : Dhcp) (pool : AddrPool) (ip : List Byte)
    (hreq : d.options.get 50 = some (.RequestedIpAddr ip)) :
    ((pool.verify_request d.client_hw_addr (ipNum ip)).isSome = true →
        (d.verify pool).client_addr = ip ∧
        (d.verify pool).options.get 53 = some (.MessageType .Ack)) ∧
    ((pool.verify_request d.client_hw_addr (ipNum ip)).isSome = false →
        (d.verify pool).options.get 53 = some (.MessageType .Nack)) := by
  constructor
  · intro hv
    unfold Dhcp.verify
    rw [hreq]
    simp only [Option.some_ne_none, and_false, if_false, hv, if_true]
    exact ⟨ack_client_addr _ _ _, ack_get53 _ _ _⟩
  · intro hv
    unfold Dhcp.verify
    rw [hreq]
    simp only [Option.some_ne_none, and_false, if_false, hv, Bool.false_eq_true,
      if_false]
    exact nack_get53 _

/-- A concrete Request packet asking for 10.0.0.5. -/
def d5 : Dhcp where
  op_code := 1
  hw_addr_ty := 1
  hw_addr_len := 6
  hops := 0
  transaction_id := [0, 0, 0, 3]
  secs := [0, 0]
  flags := [0, 0]
  client_addr := [0, 0, 0, 0]
  server_addr := [0, 0, 0, 0]
  next_server_addr := [0, 0, 0, 0]
  relay_addr := [0, 0, 0, 0]
  client_hw_addr := [1, 2, 3, 4, 5, 6]
  server_hostname := List.replicate 64 0
  file := List.replicate 128 0
  options := OptionMap.empty.add (.RequestedIpAddr [10, 0, 0, 5])
  message_type := .Request

/-- A pool holding the lease 10.0.0.5 for `d5`'s MAC. -/
def pool5 : AddrPool where
  subnet := ipv4 10 0 0 0
  pool := [(ipv4 10 0 0 5, some ⟨[1, 2, 3, 4, 5, 6], 100⟩)]
  options := (OptionMap.empty.add (.SubnetMask [255, 0, 0, 0])).add .End

/-- C5 witness: `d5` over `pool5` is acked with yiaddr 10.0.0.5. -/
theorem c5_request_verify_witness :
    d5.options.get 50 = some (.RequestedIpAddr [10, 0, 0, 5]) ∧
    (pool5.verify_request d5.client_hw_addr (ipNum [10, 0, 0, 5])).isSome = true ∧
    ((d5.verify pool5).client_addr = [10, 0, 0, 5] ∧
     (d5.verify pool5).options.get 53 = some (.MessageType .Ack)) :=
  ⟨rfl, rfl, (c5_request_verify d5 pool5 [10, 0, 0, 5] rfl).1 rfl⟩

/-! ## C6: the constructed pool -/

/-- C6 counterexample: `AddrPool::new` with range
`(10.0.0.5, 10.0.1.10)` builds a pool (no panic), yet 10.0.0.11 — an
address inside `[start, end]` — has no entry: the nested loops build the
octet-wise box `10.0.{0,1}.{5..10}`, not the inclusive address
interval. -/
theorem c6_counterexample :
    ((initialise_range 10 0 0 5 10 0 1 10).map fun l =>
        (l.map Prod.fst).contains (ipv4 10 0 0 11)) = some false ∧
    ipv4 10 0 0 5 ≤ ipv4 10 0 0 11 ∧ ipv4 10 0 0 11 ≤ ipv4 10 0 1 10 := by
  decide

/-- C6 amended: when `start` and `end` agree on the first three octets
(and the final octets do not underflow), `initialise_range` constructs
exactly one lease-free entry per address of `[start, end]` inclusive: the
pool is the ascending list of those addresses mapped to no lease, and
membership of a same-prefix address is exactly the interval bound on its
final octet.  (For ranges spanning higher octets the loops build the
octet-wise box instead — see the counterexample — and a range with any
end octet below its start octet panics in a debug build.) -/
theorem c6_amended (a b c s3 e3 n : Nat) (h : s3 ≤ e3) :
    initialise_range a b c s3 a b c e3 =
      some ((List.range (e3 - s3 + 1)).map fun i =>
        (ipv4 a b c (s3 + i), (none : Option Client))) ∧
    ((ipv4 a b c n, (none : Option Client)) ∈
        ((List.range (e3 - s3 + 1)).map fun i =>
          (ipv4 a b c (s3 + i), (none : Option Client))) ↔
      s3 ≤ n ∧ n ≤ e3) := by
  constructor
  · unfold initialise_range
    rw [if_neg (by omega)]
    simp [Nat.sub_self, show List.range 1 = [0] from rfl]
  · constructor
    · intro hm
      obtain ⟨i, hi, heq⟩ := List.mem_map.mp hm
      rw [List.mem_range] at hi
      have h2 : ipv4 a b c (s3 + i) = ipv4 a b c n := by
        have := congrArg Prod.fst heq
        simpa using this
      have h3 : s3 + i = n := by
        unfold ipv4 at h2
        omega
      omega
    · intro hb
      apply List.mem_map.mpr
      refine ⟨n - s3, List.mem_range.mpr (by omega), ?_⟩
      have h3 : s3 + (n - s3) = n := by omega
      rw [h3]

/-- C6 witness: the amended statement on the range
`192.168.1.100 .. 192.168.1.101` at the member 192.168.1.100. -/
theorem c6_amended_witness :
    (100 : Nat) ≤ 101 ∧
    (initialise_range 192 168 1 100 192 168 1 101 =
      some ((List.range (101 - 100 + 1)).map fun i =>
        (ipv4 192 168 1 (100 + i), (none : Option Client))) ∧
    ((ipv4 192 168 1 100, (none : Option Client)) ∈
        ((List.range (101 - 100 + 1)).map fun i =>
          (ipv4 192 168 1 (100 + i), (none : Option Client))) ↔
      100 ≤ 100 ∧ 100 ≤ 101)) :=
  ⟨by decide, c6_amended 192 168 1 100 101 100 (by decide)⟩

/-! ## C7: request is total on a non-empty pool -/

/-- When the allocation walk finds no free slot, every entry is leased. -/
theorem allocateAux_none_all_some (mac : List Byte) (e : Nat) :
    ∀ l, allocateAux mac e l = none → ∀ x ∈ l, x.2.isSome := by
  intro l
  induction l with
  | nil => intro _ x hx; exact absurd hx (List.not_mem_nil x)
  | cons hd tl ih =>
    intro h x hx
    match hhd : hd with
    | (ip, none) =>
        exact Option.noConfusion h
    | (ip, some c) =>
        unfold allocateAux at h
        have htl : allocateAux mac e tl = none := by
          cases haux : allocateAux mac e tl with
          | none => rfl
          | some r => rw [haux] at h; exact Option.noConfusion h
        rcases List.mem_cons.mp hx with rfl | hx2
        · rfl
        · exact ih htl x hx2

/-- Folding the `min_by_key` step from a `some` accumulator stays `some`. -/
theorem foldl_minStep_isSome (l : List (Nat × Client)) :
    ∀ acc : Option (Nat × Client), acc.isSome →
      (l.foldl (fun acc e =>
        match acc with
        | none => some e
        | some best => if e.2.expires < best.2.expires then some e else some best)
        acc).isSome := by
  induction l with
  | nil => intro acc h; exact h
  | cons y l ih =>
    intro acc h
    obtain ⟨b, rfl⟩ := Option.isSome_iff_exists.mp h
    rw [List.foldl_cons]
    apply ih
    by_cases hy : y.2.expires < b.2.expires <;> simp [hy]

/-- `min_by_key` of a non-empty iterator is `some`. -/
theorem minByExpires_cons_isSome (x : Nat × Client) (l : List (Nat × Client)) :
    (minByExpires (x :: l)).isSome := by
  unfold minByExpires
  rw [List.foldl_cons]
  exact foldl_minStep_isSome l (some x) rfl

/-- C7: on any pool with at least one allocatable address, `request`
returns an address and never panics: when no lease holds the MAC and no
address is free, it falls through to evicting the minimum-`expires`
lease, and the internal exhaustion case is never surfaced. -/
theorem c7_request_total (p : AddrPool) (mac : List Byte) (now : Nat)
    (h : p.pool ≠ []) : (p.request mac now).isSome = true := by
  unfold AddrPool.request
  cases hl : p.lookup_mac mac with
  | some ip => rfl
  | none =>
    cases ha : p.allocate_address mac now with
    | some r => rfl
    | none =>
      show (p.evict_oldest_lease mac now).isSome = true
      unfold AddrPool.evict_oldest_lease
      have hall : ∀ x ∈ p.pool, x.2.isSome := by
        apply allocateAux_none_all_some mac (now + p.leaseTime)
        unfold AddrPool.allocate_address at ha
        cases haux : allocateAux mac (now + p.leaseTime) p.pool with
        | none => rfl
        | some r2 => rw [haux] at ha; exact Option.noConfusion ha
      obtain ⟨hd, tl, hpl⟩ : ∃ hd tl, p.pool = hd :: tl := by
        cases hpool : p.pool with
        | nil => exact absurd hpool h
        | cons x xs => exact ⟨x, xs, rfl⟩
      rw [hpl]
      have hsome : hd.2.isSome := hall hd (hpl ▸ List.mem_cons_self hd tl)
      obtain ⟨c, hc⟩ := Option.isSome_iff_exists.mp hsome
      simp only [List.filterMap_cons, hc, Option.map_some']
      obtain ⟨v, hv⟩ := Option.isSome_iff_exists.mp
        (minByExpires_cons_isSome (hd.1, c) (tl.filterMap fun e => e.2.map fun c => (e.1, c)))
      rw [hv]
      rfl

/-- C7 witness: `pool5` (one address, leased to another MAC) always
serves a fresh MAC — here by eviction. -/
theorem c7_request_total_witness :
    pool5.pool ≠ [] ∧ (pool5.request [9, 9, 9, 9, 9, 9] 0).isSome = true :=
  ⟨by decide, c7_request_total pool5 [9, 9, 9, 9, 9, 9] 0 (by decide)⟩

/-! ## C10: the lease-table key set is invariant -/

/-- Allocation replaces a value in place: the key list is unchanged. -/
theorem allocateAux_keys (mac : List Byte) (e : Nat) :
    ∀ (l : List (Nat × Option Client)) (ip : Nat) (l2 : List (Nat × Option Client)),
      allocateAux mac e l = some (ip, l2) → l2.map Prod.fst = l.map Prod.fst := by
  intro l
  induction l with
  | nil => intro ip l2 h; exact Option.noConfusion h
  | cons hd tl ih =>
    intro ip l2 h
    obtain ⟨k, v⟩ := hd
    cases v with
    | none =>
        unfold allocateAux at h
        cases h
        rfl
    | some c =>
        unfold allocateAux at h
        cases haux : allocateAux mac e tl with
        | none => rw [haux] at h; exact Option.noConfusion h
        | some r =>
            rw [haux, Option.map_some'] at h
            cases h
            simp only [List.map_cons]
            rw [ih r.1 r.2 (by rw [haux])]

/-- `min_by_key` returns an element of the iterator. -/
theorem foldl_minStep_mem (l : List (Nat × Client)) :
    ∀ (acc : Option (Nat × Client)) (x : Nat × Client),
      l.foldl (fun acc e =>
        match acc with
        | none => some e
        | some best => if e.2.expires < best.2.expires then some e else some best)
        acc = some x →
      acc = some x ∨ x ∈ l := by
  induction l with
  | nil => intro acc x h; exact Or.inl h
  | cons y l ih =>
    intro acc x h
    rw [List.foldl_cons] at h
    rcases ih _ x h with h2 | h2
    · cases acc with
      | none =>
          cases h2
          exact Or.inr (List.mem_cons_self y l)
      | some b =>
          have h3 : (if y.2.expires < b.2.expires then some y else some b) = some x := h2
          by_cases hy : y.2.expires < b.2.expires
          · rw [if_pos hy] at h3
            cases h3
            exact Or.inr (List.mem_cons_self y l)
          · rw [if_neg hy] at h3
            exact Or.inl h3
    · exact Or.inr (List.mem_cons.mpr (Or.inr h2))

/-- The eviction victim is an entry of the lease table. -/
theorem minByExpires_mem (l : List (Nat × Client)) (x : Nat × Client)
    (h : minByExpires l = some x) : x ∈ l := by
  unfold minByExpires at h
  rcases foldl_minStep_mem l none x h with h2 | h2
  · exact Option.noConfusion h2
  · exact h2

/-- `BTreeMap::insert` at an existing key of a sorted table replaces the
value and keeps the key list. -/
theorem setKey_keys :
    ∀ (l : List (Nat × Option Client)) (k : Nat) (v : Option Client),
      List.Pairwise (fun x y => x.1 < y.1) l → k ∈ l.map Prod.fst →
      (setKey l k v).map Prod.fst = l.map Prod.fst := by
  intro l
  induction l with
  | nil => intro k v _ hk; exact absurd hk (by simp)
  | cons hd tl ih =>
    intro k v hs hk
    obtain ⟨k', v'⟩ := hd
    unfold setKey
    by_cases h1 : k = k'
    · rw [if_pos h1]
      simp [h1]
    · have hk2 : k ∈ tl.map Prod.fst := by
        simp only [List.map_cons, List.mem_cons] at hk
        rcases hk with h2 | h2
        · exact absurd h2 h1
        · exact h2
      have hlt : k' < k := by
        obtain ⟨x, hx, hx1⟩ := List.mem_map.mp hk2
        have := (List.pairwise_cons.mp hs).1 x hx
        omega
      rw [if_neg h1, if_neg (by omega)]
      simp only [List.map_cons]
      rw [ih k v (List.pairwise_cons.mp hs).2 hk2]

/-- C10: `request` — through lookup, in-place allocation, or eviction —
never adds or removes an address: the key list of the lease table is
unchanged (`verify_request` and `lookup_mac` take the pool immutably).
`hsort` is the `BTreeMap` ordering invariant of the table. -/
theorem c10_request_preserves_keys (p : AddrPool) (mac : List Byte)
    (now ip : Nat) (q : AddrPool)
    (hsort : List.Pairwise (fun x y => x.1 < y.1) p.pool)
    (h : p.request mac now = some (ip, q)) :
    q.pool.map Prod.fst = p.pool.map Prod.fst := by
  unfold AddrPool.request at h
  cases hl : p.lookup_mac mac with
  | some ip2 =>
      rw [hl] at h
      cases h
      rfl
  | none =>
      rw [hl] at h
      cases ha : p.allocate_address mac now with
      | some r =>
          simp only [ha] at h
          cases h
          unfold AddrPool.allocate_address at ha
          cases haux : allocateAux mac (now + p.leaseTime) p.pool with
          | none => rw [haux] at ha; exact Option.noConfusion ha
          | some r2 =>
              rw [haux, Option.map_some'] at ha
              cases ha
              exact allocateAux_keys mac (now + p.leaseTime) p.pool r2.1 r2.2
                (by rw [haux])
      | none =>
          simp only [ha] at h
          unfold AddrPool.evict_oldest_lease at h
          cases hm : minByExpires
              (p.pool.filterMap fun e => e.2.map fun c => (e.1, c)) with
          | none => simp [hm] at h
          | some victim =>
              simp only [hm] at h
              cases h
              apply setKey_keys p.pool victim.1 _ hsort
              have hv := minByExpires_mem _ _ hm
              obtain ⟨e, he, heq⟩ := List.mem_filterMap.mp hv
              cases he2 : e.2 with
              | none => rw [he2] at heq; exact Option.noConfusion heq
              | some c =>
                  rw [he2, Option.map_some'] at heq
                  cases heq
                  exact List.mem_map.mpr ⟨e, he, rfl⟩

/-- The address handed out by `request` on `pool5` for a fresh MAC. -/
def ip10 : Nat :=
  match pool5.request [9, 9, 9, 9, 9, 9] 0 with
  | some r => r.1
  | none => 0

/-- The pool after that `request`. -/
def q10 : AddrPool :=
  match pool5.request [9, 9, 9, 9, 9, 9] 0 with
  | some r => r.2
  | none => pool5

/-- C10 witness: the eviction path on `pool5` rewrites a lease but leaves
the key list unchanged. -/
theorem c10_request_preserves_keys_witness :
    List.Pairwise (fun x y => x.1 < y.1) pool5.pool ∧
    pool5.request [9, 9, 9, 9, 9, 9] 0 = some (ip10, q10) ∧
    q10.pool.map Prod.fst = pool5.pool.map Prod.fst :=
  ⟨by decide, rfl,
   c10_request_preserves_keys pool5 [9, 9, 9, 9, 9, 9] 0 ip10 q10 (by decide) rfl⟩

end Dhc3po
